import Mathlib

/-!
# OmniStream telemetry agent — verification of the bounded queue and pipeline

Shallow embedding of the OmniStream telemetry agent (C++17). The embedding
covers:

* `ThreadSafeQueue` (`src/thread_safe_queue.hpp`) — a bounded FIFO with a
  one-shot shutdown flag. The C++ operations block on condition variables;
  here an operation that would block (its wait predicate is false) is
  represented by returning `none`, and an operation that proceeds returns
  `some` of the updated state and the C++ return value. This captures the
  state transition performed inside the critical section once the wait
  predicate holds.
* The producer's pacing computation (`src/main.cpp`, `physics_thread`) —
  the duration handed to `sleep_for` each iteration.
* The consumer dispatch and loops (`src/main.cpp` `network_thread`,
  `src/network_client.hpp` `NetworkClient`) — mode selection between the
  live gRPC stream and the local simulate path, parameterised over the
  outcome of each stream write.
-/

namespace omnistream

/-- State of `ThreadSafeQueue<T>` from `src/thread_safe_queue.hpp`:
the underlying `std::queue` contents (front of the C++ queue = head of the
list), the fixed capacity, and the shutdown flag. -/
structure ThreadSafeQueue (α : Type) where
  queue_ : List α
  capacity_ : Nat
  shutdown_ : Bool
deriving DecidableEq

namespace ThreadSafeQueue

/-- `push`: waits until `queue_.size() < capacity_ || shutdown_`; while the
predicate is false the call blocks (`none`). Once it holds: if shut down,
return `false` without modifying the queue; otherwise append the item and
return `true`. -/
def push (q : ThreadSafeQueue α) (item : α) :
    Option (ThreadSafeQueue α × Bool) :=
  if q.queue_.length < q.capacity_ || q.shutdown_ then
    if q.shutdown_ then some (q, false)
    else some ({ q with queue_ := q.queue_ ++ [item] }, true)
  else none

/-- `pop`: waits until `!queue_.empty() || shutdown_`; while the predicate is
false the call blocks (`none`). Once it holds: if shut down and empty,
return the end-of-stream sentinel `std::nullopt`; otherwise remove and
return the front item. -/
def pop (q : ThreadSafeQueue α) :
    Option (ThreadSafeQueue α × Option α) :=
  if !q.queue_.isEmpty || q.shutdown_ then
    if q.shutdown_ && q.queue_.isEmpty then some (q, none)
    else
      match q.queue_ with
      | [] => some (q, none)
      | x :: rest => some ({ q with queue_ := rest }, some x)
  else none

/-- `shutdown`: sets the shutdown flag (and, in C++, notifies both condition
variables; the wakeups are reflected here by `push`/`pop` no longer
returning `none` once the flag is set). -/
def shutdown (q : ThreadSafeQueue α) : ThreadSafeQueue α :=
  { q with shutdown_ := true }

/-- `size`: current number of stored items. -/
def size (q : ThreadSafeQueue α) : Nat := q.queue_.length

end ThreadSafeQueue

/-- Iterate `push`: succeeds (`some`) only when every individual push
proceeds without blocking and returns `true`. -/
def pushAll (q : ThreadSafeQueue α) : List α → Option (ThreadSafeQueue α)
  | [] => some q
  | x :: xs =>
    match q.push x with
    | some (q1, true) => pushAll q1 xs
    | _ => none

/-- Iterate `pop` `n` times: succeeds (`some`) only when every individual pop
proceeds without blocking and yields an item (not the end-of-stream
sentinel); returns the final queue state and the popped items in order. -/
def popN (q : ThreadSafeQueue α) : Nat → Option (ThreadSafeQueue α × List α)
  | 0 => some (q, [])
  | n + 1 =>
    match q.pop with
    | some (q1, some x) =>
      match popN q1 n with
      | some (q2, xs) => some (q2, x :: xs)
      | none => none
    | _ => none

/-! ## Producer pacing (`src/main.cpp`, `physics_thread`)

Each iteration records a start time, pushes one generated packet, and then
executes `std::this_thread::sleep_for(frame - elapsed)` where
`frame = std::chrono::microseconds(16667)`. Durations are modelled as
integer microsecond counts. -/

/-- The 60 Hz frame interval from `main.cpp`: 16667 microseconds. -/
def frameMicros : Int := 16667

/-- The duration argument `frame - elapsed` passed to `sleep_for` at the end
of each producer iteration (`main.cpp` line 38). No clamping is applied in
the source: the value is negative whenever `elapsed > frameMicros`. -/
def sleepForArg (elapsed : Int) : Int := frameMicros - elapsed

/-- The time actually slept. Per the C++ standard, `sleep_for` blocks for at
least the given duration; a non-positive duration imposes no blocking, so
the effective sleep is the argument clamped below at zero. -/
def effectiveSleep (elapsed : Int) : Int := max 0 (sleepForArg elapsed)

/-! ## Consumer (`src/main.cpp` `network_thread`, `src/network_client.hpp`)

The consumer loops pop from the queue until the end-of-stream sentinel.
They are modelled over the list of items the queue delivers (by
`popN_prefix` / `drain`, a closed queue delivers exactly its contents in
order). The outcome of each gRPC `stream->Write` is a parameter
`writeOk : α → Bool`. -/

/-- State of `NetworkClient` from `src/network_client.hpp` (the gRPC channel
and stub handles are opaque and carry no modelled state). -/
structure NetworkClient where
  address_ : String
  connected_ : Bool
  sent_ : Nat
deriving DecidableEq

/-- `NetworkClient::connect`: creates a channel and stub for `address_`,
sets `connected_ = true`, logs, and returns `true` — unconditionally, with
no probe of the remote sink. -/
def NetworkClient.connect (c : NetworkClient) : NetworkClient × Bool :=
  ({ c with connected_ := true }, true)

/-- Observable outcome of one consumer run: number of packets counted by
`log_progress` (the `sent_` counter), number of `stream->Write` calls
attempted, items left undelivered in the queue when the loop exited, and
whether the gRPC stream was closed (`WritesDone` + `Finish`, whose status
is then reported). -/
structure ConsumerResult (α : Type) where
  sent : Nat
  writes : Nat
  remaining : List α
  streamClosed : Bool
deriving DecidableEq

/-- `NetworkClient::simulate`: pops every item and discards it, counting it
via `log_progress`; no stream is ever opened, no write attempted. -/
def simulateRun (items : List α) : ConsumerResult α :=
  { sent := items.length, writes := 0, remaining := [], streamClosed := false }

/-- The write loop of `NetworkClient::stream`: for each popped packet,
attempt `stream->Write`; on failure `break` immediately (the packet is
dropped, `log_progress` is not called); on success count it and continue.
Returns `(sent, writesAttempted, itemsLeftInQueue)`. -/
def streamLoop (writeOk : α → Bool) : List α → Nat × Nat × List α
  | [] => (0, 0, [])
  | x :: rest =>
    if writeOk x then
      let r := streamLoop writeOk rest
      (r.1 + 1, r.2.1 + 1, r.2.2)
    else (0, 1, rest)

/-- `NetworkClient::stream` on a connected client: run the write loop, then
`WritesDone`, `Finish`, and report the final status (stream closed). -/
def streamRun (writeOk : α → Bool) (items : List α) : ConsumerResult α :=
  let r := streamLoop writeOk items
  { sent := r.1, writes := r.2.1, remaining := r.2.2, streamClosed := true }

/-- `network_thread` from `main.cpp`: in simulate mode run the discard path;
otherwise attempt `connect()` and stream on success, falling back to the
discard path when `connect()` reports failure. `connectOk` is the value
`client.connect()` returned at the branch. -/
def network_thread (simulate connectOk : Bool) (writeOk : α → Bool)
    (items : List α) : ConsumerResult α :=
  if simulate then simulateRun items
  else if connectOk then streamRun writeOk items
  else simulateRun items

/-- A push into an open queue with spare capacity appends the item. -/
theorem push_open_spare (q : ThreadSafeQueue α) (x : α)
    (hs : q.shutdown_ = false) (hc : q.queue_.length < q.capacity_) :
    q.push x = some ({ q with queue_ := q.queue_ ++ [x] }, true) := by
  simp [ThreadSafeQueue.push, hs, hc]

/-- Pushing a whole list into an open queue with enough spare capacity
appends the list. -/
theorem pushAll_open (xs : List α) : ∀ (q : ThreadSafeQueue α),
    q.shutdown_ = false → q.queue_.length + xs.length ≤ q.capacity_ →
    pushAll q xs = some { q with queue_ := q.queue_ ++ xs } := by
  induction xs with
  | nil => intro q hs hc; simp [pushAll]
  | cons x xs ih =>
    intro q hs hc
    have hlt : q.queue_.length < q.capacity_ := by
      simp [List.length_cons] at hc; omega
    rw [pushAll, push_open_spare q x hs hlt]
    have hrec := ih { q with queue_ := q.queue_ ++ [x] } hs
      (by simp [List.length_cons] at hc ⊢; omega)
    simp only [hrec, List.append_assoc, List.singleton_append]

/-- Popping `xs.length` times from a queue whose contents start with `xs`
returns exactly `xs`, in order, leaving the rest. -/
theorem popN_prefix (xs : List α) : ∀ (q : ThreadSafeQueue α) (rest : List α),
    q.queue_ = xs ++ rest →
    popN q xs.length = some ({ q with queue_ := rest }, xs) := by
  induction xs with
  | nil =>
    intro q rest h
    cases q
    simp only [List.nil_append] at h
    simp [popN, h]
  | cons x xs ih =>
    intro q rest h
    have hpop : q.pop = some ({ q with queue_ := xs ++ rest }, some x) := by
      simp [ThreadSafeQueue.pop, h]
    rw [List.length_cons, popN, hpop]
    simp only [ih { q with queue_ := xs ++ rest } rest rfl]

/-- The write loop stops at the first failed write: every earlier item is
written and counted, the failing item consumes exactly one attempt and is
dropped, and the items after it are left in the queue untouched. -/
theorem streamLoop_break (writeOk : α → Bool) (x : α) (post : List α)
    (hx : writeOk x = false) :
    ∀ pre, (∀ y ∈ pre, writeOk y = true) →
      streamLoop writeOk (pre ++ x :: post) = (pre.length, pre.length + 1, post) := by
  intro pre
  induction pre with
  | nil => intro _; simp [streamLoop, hx]
  | cons y ys ih =>
    intro hpre
    have hy : writeOk y = true := hpre y (by simp)
    have hys := ih (fun z hz => hpre z (by simp [hz]))
    simp [streamLoop, hy, hys]

/-- C1: pushing N items into an open queue with sufficient capacity
succeeds, and N successive pops return exactly those items in push order
(strict FIFO: no duplication, no loss, no reordering). -/
theorem C1_fifo_order (α : Type) (xs : List α) (C : Nat) (h : xs.length ≤ C) :
    pushAll (⟨[], C, false⟩ : ThreadSafeQueue α) xs = some ⟨xs, C, false⟩
    ∧ popN (⟨xs, C, false⟩ : ThreadSafeQueue α) xs.length
        = some (⟨[], C, false⟩, xs) := by
  constructor
  · have hpush := pushAll_open xs (⟨[], C, false⟩ : ThreadSafeQueue α) rfl
      (by simpa using h)
    simpa using hpush
  · have hpop := popN_prefix xs (⟨xs, C, false⟩ : ThreadSafeQueue α) []
      (by simp)
    simpa using hpop

/-- Witness for C1 at xs = [10, 20, 30], capacity 3. -/
theorem C1_fifo_order_witness :
    pushAll (⟨[], 3, false⟩ : ThreadSafeQueue Nat) [10, 20, 30]
        = some ⟨[10, 20, 30], 3, false⟩
    ∧ popN (⟨[10, 20, 30], 3, false⟩ : ThreadSafeQueue Nat) 3
        = some (⟨[], 3, false⟩, [10, 20, 30]) :=
  C1_fifo_order Nat [10, 20, 30] 3 (by decide)

/-- C2: after `shutdown()` with K items enqueued, K successive pops return
those K items in order, the next pop returns the EndOfStream sentinel, and
a pop never returns EndOfStream while the queue is non-empty. -/
theorem C2_drain_before_end (α : Type) (l : List α) (C : Nat) (b : Bool) :
    popN (ThreadSafeQueue.shutdown ⟨l, C, b⟩) l.length = some (⟨[], C, true⟩, l)
    ∧ ThreadSafeQueue.pop (⟨[], C, true⟩ : ThreadSafeQueue α)
        = some (⟨[], C, true⟩, none)
    ∧ ∀ q q' : ThreadSafeQueue α, q.pop = some (q', none) → q.queue_ = [] := by
  refine ⟨?_, by simp [ThreadSafeQueue.pop], ?_⟩
  · have hdrain := popN_prefix l (ThreadSafeQueue.shutdown ⟨l, C, b⟩) []
      (by simp [ThreadSafeQueue.shutdown])
    simpa [ThreadSafeQueue.shutdown] using hdrain
  · intro q q' hq
    cases hl : q.queue_ with
    | nil => rfl
    | cons x rest => simp [ThreadSafeQueue.pop, hl] at hq

/-- Witness for C2 at K = 2 items [7, 8], capacity 5. -/
theorem C2_drain_before_end_witness :
    popN (ThreadSafeQueue.shutdown (⟨[7, 8], 5, false⟩ : ThreadSafeQueue Nat)) 2
        = some (⟨[], 5, true⟩, [7, 8])
    ∧ ThreadSafeQueue.pop (⟨[], 5, true⟩ : ThreadSafeQueue Nat)
        = some (⟨[], 5, true⟩, none)
    ∧ (⟨[], 5, true⟩ : ThreadSafeQueue Nat).queue_ = [] :=
  ⟨(C2_drain_before_end Nat [7, 8] 5 false).1,
   (C2_drain_before_end Nat [7, 8] 5 false).2.1,
   (C2_drain_before_end Nat [7, 8] 5 false).2.2 ⟨[], 5, true⟩ ⟨[], 5, true⟩ rfl⟩

/-- C3: once the queue is shut down, any push — including one that was
blocked waiting for space — returns `false` and leaves the state (contents,
capacity, flag) unchanged. -/
theorem C3_push_after_shutdown (α : Type) (q : ThreadSafeQueue α) (x : α)
    (h : q.shutdown_ = true) : q.push x = some (q, false) := by
  simp [ThreadSafeQueue.push, h]

/-- Witness for C3: the spec scenario — capacity 1 holding A (= 1), the push
of B (= 2) that was blocked on the full queue returns `false` after
shutdown, and B is never enqueued. -/
theorem C3_push_after_shutdown_witness :
    (⟨[1], 1, true⟩ : ThreadSafeQueue Nat).push 2 = some (⟨[1], 1, true⟩, false) :=
  C3_push_after_shutdown Nat ⟨[1], 1, true⟩ 2 rfl

/-- C4: the invariant `length ≤ capacity` is preserved by push, pop and
shutdown, and a push on a full open queue blocks (never appends). -/
theorem C4_capacity_invariant (α : Type) (q : ThreadSafeQueue α) (x : α)
    (h : q.size ≤ q.capacity_) :
    (∀ p ∈ q.push x, p.1.size ≤ p.1.capacity_)
    ∧ (∀ p ∈ q.pop, p.1.size ≤ p.1.capacity_)
    ∧ q.shutdown.size ≤ q.shutdown.capacity_
    ∧ (q.size = q.capacity_ → q.shutdown_ = false → q.push x = none) := by
  refine ⟨?_, ?_, h, ?_⟩
  · intro p hp
    simp only [ThreadSafeQueue.push, Option.mem_def] at hp
    split at hp
    next hguard =>
      split at hp
      next hs =>
        cases Option.some.inj hp
        exact h
      next hs =>
        cases Option.some.inj hp
        have hlt : q.queue_.length < q.capacity_ := by
          simp at hguard
          rcases hguard with hc | hc
          · exact hc
          · exact absurd hc hs
        simp [ThreadSafeQueue.size]
        omega
    next hguard => cases hp
  · intro p hp
    simp only [ThreadSafeQueue.pop, Option.mem_def] at hp
    split at hp
    next hguard =>
      split at hp
      next hse =>
        cases Option.some.inj hp
        exact h
      next hse =>
        cases hl : q.queue_ with
        | nil => rw [hl] at hp; cases Option.some.inj hp; exact h
        | cons y rest =>
          rw [hl] at hp
          cases Option.some.inj hp
          simp only [ThreadSafeQueue.size] at h ⊢
          rw [hl] at h
          simp at h ⊢
          omega
    next hguard => cases hp
  · intro heq hs
    have hnlt : ¬ q.queue_.length < q.capacity_ := by
      simp only [ThreadSafeQueue.size] at heq
      omega
    simp [ThreadSafeQueue.push, hs, hnlt]

/-- Witness for C4: the shutdown conjunct and the blocking conjunct applied
to the full open queue [1, 2] with capacity 2. -/
theorem C4_capacity_invariant_witness :
    (⟨[1, 2], 2, false⟩ : ThreadSafeQueue Nat).shutdown.size
        ≤ (⟨[1, 2], 2, false⟩ : ThreadSafeQueue Nat).shutdown.capacity_
    ∧ (⟨[1, 2], 2, false⟩ : ThreadSafeQueue Nat).push 3 = none :=
  ⟨(C4_capacity_invariant Nat ⟨[1, 2], 2, false⟩ 3 (by decide)).2.2.1,
   (C4_capacity_invariant Nat ⟨[1, 2], 2, false⟩ 3 (by decide)).2.2.2
     (by decide) rfl⟩

/-- C5: shutdown is idempotent (a second call yields the identical state),
and once the flag is set no operation — push, pop or shutdown — ever clears
it (`size` does not modify the state at all). -/
theorem C5_shutdown_idempotent (α : Type) (q : ThreadSafeQueue α) (x : α) :
    q.shutdown.shutdown = q.shutdown
    ∧ (q.shutdown_ = true →
        (∀ p ∈ q.push x, p.1.shutdown_ = true)
        ∧ (∀ p ∈ q.pop, p.1.shutdown_ = true)
        ∧ q.shutdown.shutdown_ = true) := by
  refine ⟨rfl, fun hs => ⟨?_, ?_, rfl⟩⟩
  · intro p hp
    simp only [ThreadSafeQueue.push, Option.mem_def, hs] at hp
    simp at hp
    cases hp
    exact hs
  · intro p hp
    simp only [ThreadSafeQueue.pop, Option.mem_def] at hp
    split at hp
    next hguard =>
      split at hp
      next hse => cases Option.some.inj hp; exact hs
      next hse =>
        cases hl : q.queue_ with
        | nil => rw [hl] at hp; cases Option.some.inj hp; exact hs
        | cons y rest => rw [hl] at hp; cases Option.some.inj hp; exact hs
    next hguard => cases hp

/-- Witness for C5 on the shut-down queue [4] with capacity 2: a push after
shutdown keeps the flag set, and a second shutdown is a no-op. -/
theorem C5_shutdown_idempotent_witness :
    (⟨[4], 2, true⟩ : ThreadSafeQueue Nat).shutdown.shutdown
        = (⟨[4], 2, true⟩ : ThreadSafeQueue Nat).shutdown
    ∧ (⟨[4], 2, true⟩ : ThreadSafeQueue Nat).shutdown.shutdown_ = true :=
  ⟨(C5_shutdown_idempotent Nat ⟨[4], 2, true⟩ 9).1,
   ((C5_shutdown_idempotent Nat ⟨[4], 2, true⟩ 9).2 rfl).2.2⟩

/-- C6 counterexample: the duration the producer computes and passes to
`sleep_for` is `frame - elapsed` with no clamp; at elapsed = 20000 µs
(> 16667 µs frame) the computed duration is negative, not zero. -/
theorem C6_sleep_counterexample :
    frameMicros < 20000 ∧ sleepForArg 20000 < 0 ∧ sleepForArg 20000 ≠ 0 := by
  refine ⟨by decide, by decide, by decide⟩

/-- C6 (amended): the producer passes the unclamped difference
`frame - elapsed` to `sleep_for`, which may be negative when the iteration
overran; the effective sleep — `sleep_for` does not block for non-positive
durations — is clamped to zero and is never negative. -/
theorem C6_sleep_clamped (elapsed : Int) (h : frameMicros ≤ elapsed) :
    sleepForArg elapsed ≤ 0 ∧ effectiveSleep elapsed = 0
    ∧ 0 ≤ effectiveSleep elapsed := by
  have h1 : sleepForArg elapsed ≤ 0 := by
    simp only [sleepForArg, frameMicros] at *
    omega
  exact ⟨h1, by simp [effectiveSleep, max_eq_left h1], le_max_left 0 _⟩

/-- Witness for the amended C6 at elapsed = 20000 µs. -/
theorem C6_sleep_clamped_witness :
    frameMicros ≤ 20000 ∧ sleepForArg 20000 ≤ 0 ∧ effectiveSleep 20000 = 0
    ∧ 0 ≤ effectiveSleep 20000 :=
  ⟨by decide, C6_sleep_clamped 20000 (by decide)⟩

/-- C7: with Live mode requested (`simulate = false`) and `connect()`
reporting failure, `network_thread` runs the discard path: the run equals a
simulate-mode run, the final sent count equals the number of items popped,
and zero transport writes are attempted. -/
theorem C7_connection_fallback (α : Type) (writeOk : α → Bool)
    (items : List α) :
    network_thread false false writeOk items = simulateRun items
    ∧ (network_thread false false writeOk items).sent = items.length
    ∧ (network_thread false false writeOk items).writes = 0 :=
  ⟨rfl, rfl, rfl⟩

/-- C8: in Live mode, the first failed write stops the forwarding loop
immediately — earlier items were each written once, the failed item gets
exactly one attempt and is not requeued, later items are never written —
and the stream is closed with its final status reported. -/
theorem C8_write_failure (α : Type) (writeOk : α → Bool) (pre : List α)
    (x : α) (post : List α)
    (hpre : ∀ y ∈ pre, writeOk y = true) (hx : writeOk x = false) :
    streamRun writeOk (pre ++ x :: post) =
      { sent := pre.length, writes := pre.length + 1, remaining := post,
        streamClosed := true } := by
  simp [streamRun, streamLoop_break writeOk x post hx pre hpre]

/-- Witness for C8: writes succeed below 10; items [1, 2] are sent, the
write of 50 fails, 3 stays in the queue and the stream is closed. -/
theorem C8_write_failure_witness :
    streamRun (fun n => decide (n < 10)) ([1, 2] ++ 50 :: [3]) =
      { sent := 2, writes := 3, remaining := [3], streamClosed := true } :=
  C8_write_failure Nat (fun n => decide (n < 10)) [1, 2] 50 [3]
    (by decide) (by decide)

/-- C9: `NetworkClient::connect` returns `true` for every client state and
address: it sets the connected flag and reports success unconditionally,
touching nothing else and never probing the remote sink. -/
theorem C9_connect_always_true (c : NetworkClient) :
    c.connect.2 = true ∧ c.connect.1.connected_ = true
    ∧ c.connect.1.address_ = c.address_ ∧ c.connect.1.sent_ = c.sent_ :=
  ⟨rfl, rfl, rfl, rfl⟩

/-- C10: `shutdown()` modifies only the closed flag — the stored items,
their order, and the capacity are identical before and after the call. -/
theorem C10_shutdown_frame (α : Type) (q : ThreadSafeQueue α) :
    q.shutdown.queue_ = q.queue_ ∧ q.shutdown.capacity_ = q.capacity_ :=
  ⟨rfl, rfl⟩

end omnistream
